import Mathlib

/-!
Open-flag decoding of `c-deps/stream/stream.h`.

The header packs three fields into the high byte of the `int32_t` open-flag
word given to `streamOpenFile`: the constants `STREAM_IO_PRIORITY_ULTRA_HIGH`
(`0x00000000`), `STREAM_IO_PRIORITY_HIGH` (`0x01000000`),
`STREAM_IO_PRIORITY_NORMAL` (`0x02000000`), `STREAM_IO_PRIORITY_LOW`
(`0x03000000`), `STREAM_WAL_FILE_FLAG` (`0x04000000`) and
`STREAM_NEED_CACHE_FLAG` (`0x08000000`), read back by

    int32_t inline getIoPriority(int32_t flag) { return ((flag >> 24) & 0x3); }
    bool    inline getIsWal(int32_t flag)      { return (bool)((flag >> 26) & 1); }
    bool    inline getIsCache(int32_t flag)    { return (bool)((flag >> 27) & 1); }

An `int32_t` is embedded as the mathematical integer it denotes, an `Int`
in the range `-2^31 ≤ x < 2^31`.  `>>` on a signed operand is the arithmetic
shift `Int.shiftRight` (sign-extending, i.e. rounding towards minus infinity)
and `&`, `|` are the two's-complement operations `Int.land`, `Int.lor`.
None of the three getters performs arithmetic that can overflow.

The rest of the header is declarations: the telemetry records, the open call,
lease recovery and the copy between the tiers have no body there.  Their
sections below model the missing bodies from the written specification and
from the comments of the header, and say so in each definition.
-/

namespace Stream

/-! ## Data model -/

/-- The values an `int32_t` can hold. -/
def isInt32 (x : Int) : Prop := -2 ^ 31 ≤ x ∧ x < 2 ^ 31

instance (x : Int) : Decidable (isInt32 x) := by
  unfold isInt32; exact inferInstance

/-- `#define STREAM_IO_PRIORITY_ULTRA_HIGH  0x00000000` -/
def STREAM_IO_PRIORITY_ULTRA_HIGH : Int := 0x00000000

/-- `#define STREAM_IO_PRIORITY_HIGH        0x01000000` -/
def STREAM_IO_PRIORITY_HIGH : Int := 0x01000000

/-- `#define STREAM_IO_PRIORITY_NORMAL      0x02000000` -/
def STREAM_IO_PRIORITY_NORMAL : Int := 0x02000000

/-- `#define STREAM_IO_PRIORITY_LOW         0x03000000` -/
def STREAM_IO_PRIORITY_LOW : Int := 0x03000000

/-- `#define STREAM_WAL_FILE_FLAG           0x04000000` -/
def STREAM_WAL_FILE_FLAG : Int := 0x04000000

/-- `#define STREAM_NEED_CACHE_FLAG         0x08000000` -/
def STREAM_NEED_CACHE_FLAG : Int := 0x08000000

/-- `return ((flag >> 24) & 0x3);` -/
def getIoPriority (flag : Int) : Int :=
  Int.land (Int.shiftRight flag 24) 0x3

/-- `return (bool)((flag >> 26) & 1);` where the cast to `bool` is "non-zero". -/
def getIsWal (flag : Int) : Bool :=
  Int.land (Int.shiftRight flag 26) 1 != 0

/-- `return (bool)((flag >> 27) & 1);` where the cast to `bool` is "non-zero". -/
def getIsCache (flag : Int) : Bool :=
  Int.land (Int.shiftRight flag 27) 1 != 0

/-- The POSIX open-flag values enumerated by the header comment above the
`STREAM_*` constants, in the order of the comment and read as hexadecimal:
`8 / 40 / 100 / 400 / 800 / 8000 / 10004 / 20000 / 40000 / 80000 / 100000`
`200000 / 1000 / 80 / 100000`. -/
def posixOpenFlags : List Int :=
  [0x8, 0x40, 0x100, 0x400, 0x800, 0x8000, 0x10004, 0x20000, 0x40000, 0x80000,
   0x100000, 0x200000, 0x1000, 0x80, 0x100000]

/-- The six constants the header defines for the high byte. -/
def streamFlagConstants : List Int :=
  [STREAM_IO_PRIORITY_ULTRA_HIGH, STREAM_IO_PRIORITY_HIGH, STREAM_IO_PRIORITY_NORMAL,
   STREAM_IO_PRIORITY_LOW, STREAM_WAL_FILE_FLAG, STREAM_NEED_CACHE_FLAG]

/-- Bitwise OR (`|`) of a list of flag words, the way a caller combines flags;
the OR of no flag is `0`. -/
def orAll (s : List Int) : Int := s.foldl Int.lor 0

/-- The packed flag word of a priority `p`, the two booleans and the low
(POSIX) part `l`, combined with `|` as a caller of `streamOpenFile` writes it:
`(p << 24) | (w ? STREAM_WAL_FILE_FLAG : 0) | (c ? STREAM_NEED_CACHE_FLAG : 0) | l`. -/
def packOpenFlag (p : Int) (w c : Bool) (l : Int) : Int :=
  Int.lor (Int.lor (Int.lor (p * 2 ^ 24) (if w then STREAM_WAL_FILE_FLAG else 0))
    (if c then STREAM_NEED_CACHE_FLAG else 0)) l

/-- `#define O_RDONLY 1`, the fallback of the header, in force only where
`<fcntl.h>` does not define `O_RDONLY` itself. -/
def O_RDONLY : Int := 1

/-- `#define O_WRONLY 2`, the fallback of the header, in force only where
`<fcntl.h>` does not define `O_WRONLY` itself. -/
def O_WRONLY : Int := 2

/-- Replacing bits 24-25 of a flag word by a priority constant, as a caller
writes it: `(flag & ~STREAM_IO_PRIORITY_LOW) | priority`, where `~` is the
two's-complement complement `Int.lnot`. -/
def replacePriority (flag priority : Int) : Int :=
  Int.lor (Int.land flag (Int.lnot STREAM_IO_PRIORITY_LOW)) priority

/-! ## Telemetry aggregator

The header exports `stream_histogram_t` (`name`, `type`, `count`, `sum`, `max`,
`avg`, `percentile99`) and `stream_ticker_t` (`name`, `sum`) and declares
`stream_get_hist`, `stream_get_ticker`, `stream_reset_hist` and
`streamGetStatInfo(int doClear)`; the code that fills them is not part of the
header. -/

/-- The integer fields of `stream_histogram_t`: `count` (execution times),
`sum` and `max` (of execution micros).  The two `double` fields `avg` and
`percentile99` are estimates derived from the samples and are left out. -/
structure Histogram where
  count : Nat
  sum : Nat
  max : Nat
deriving DecidableEq

/-- Modelled from the spec: the sample handed to the aggregator, which the
header does not declare: "StatSample — {operation type, success/failure,
latency, byte count}". -/
structure StatSample where
  opType : String
  success : Bool
  latencyMicros : Nat
  byteCount : Nat
deriving DecidableEq

/-- Modelled from the spec: the state of the TelemetryAggregator, missing from
the header: one clearable histogram and one cumulative ticker sum per
operation type (`stream_histogram_t` and `stream_ticker_t` are its exported
records, keyed by `name`). -/
structure Telemetry where
  hist : String → Histogram
  ticker : String → Nat

/-- Modelled from the spec: `record(opType, latencyMicros, byteCount, success)`,
whose code is missing from the header: "it updates one ticker and one histogram
bucket per operation type".  The histogram of the operation type counts the
sample, adds its latency to `sum` and raises `max` to it; the ticker of the
operation type, a "monotonic cumulative sum", grows by the byte count. -/
def record (t : Telemetry) (s : StatSample) : Telemetry :=
  { hist := fun op =>
      if op = s.opType then
        { count := (t.hist op).count + 1,
          sum := (t.hist op).sum + s.latencyMicros,
          max := Nat.max (t.hist op).max s.latencyMicros }
      else t.hist op,
    ticker := fun op =>
      if op = s.opType then t.ticker op + s.byteCount else t.ticker op }

/-- Modelled from the spec: `snapshot(clear: bool)`, whose code is missing from
the header (there `streamGetStatInfo(int doClear)` and `stream_reset_hist`):
it "returns the current values of all counters/histograms/tickers and, if
`clear` is true, resets counts/sums/max/histograms to zero while leaving
tickers (cumulative, lifetime) untouched".  The first component is the value
returned, the second the state left behind. -/
def snapshot (t : Telemetry) (clear : Bool) : Telemetry × Telemetry :=
  (t, if clear then
        { hist := fun _ => { count := 0, sum := 0, max := 0 }, ticker := t.ticker }
      else t)

/-- A call made on the aggregator. -/
inductive TelemetryCall where
  | record (s : StatSample)
  | snapshot (clear : Bool)
deriving DecidableEq

/-- The state after one call. -/
def stepTelemetry (t : Telemetry) : TelemetryCall → Telemetry
  | TelemetryCall.record s => record t s
  | TelemetryCall.snapshot clear => (snapshot t clear).2

/-- The state after a sequence of calls, first call first. -/
def runTelemetry (t : Telemetry) (calls : List TelemetryCall) : Telemetry :=
  calls.foldl stepTelemetry t

/-- The constants of `<fcntl.h>` that the open call inspects.  They belong to
the platform, so the model takes them as a parameter. -/
structure FcntlFlags where
  O_RDONLY : Int
  O_WRONLY : Int
  O_RDWR : Int
  O_CREAT : Int
  O_EXCL : Int
  O_APPEND : Int
  O_SYNC : Int
deriving DecidableEq

/-- The values of `<fcntl.h>` on Linux, the platform whose flag values (`40`
for `O_CREAT`, `80` for `O_EXCL`, `400` for `O_APPEND`, ...) the header comment
lists. -/
def linuxFcntl : FcntlFlags :=
  { O_RDONLY := 0, O_WRONLY := 1, O_RDWR := 2, O_CREAT := 0x40, O_EXCL := 0x80,
    O_APPEND := 0x400, O_SYNC := 0x101000 }

/-- The value `errno` holds after a failed open. -/
inductive OpenError where
  | ENOTSUP
  | backendFailure
deriving DecidableEq

/-- Modelled from the spec: the state behind a `streamFile`, an opaque pointer
in the header: the path, the flag word it was opened with, the optional
lock-path and the optional storage-policy tag. -/
structure FileHandle where
  fileId : Nat
  path : String
  flags : Int
  lockPath : String
  storagePolicyName : String
deriving DecidableEq

/-- Modelled from the spec: the state behind a `streamFS`, an opaque pointer in
the header: the registry of live handles, and how many requests went out to
the storage backend and to the lease coordinator so far. -/
structure FilesystemSession where
  handles : List FileHandle
  backendCalls : Nat
  leaseCalls : Nat
deriving DecidableEq

/-- Modelled from the spec: the validation of the open mode, missing from the
header, after its comment `(O_RDWR || (O_EXCL & O_CREAT))`: the mode is
unsupported when the flag word has a bit of `O_RDWR`, or has a bit of `O_EXCL`
and a bit of `O_CREAT` ("rejecting read+write simultaneously and
exclusive-create combined with a conflicting flag"). -/
def unsupportedOpenMode (k : FcntlFlags) (flags : Int) : Bool :=
  Int.land flags k.O_RDWR != 0 ||
    (Int.land flags k.O_EXCL != 0 && Int.land flags k.O_CREAT != 0)

/-- Modelled from the spec: the body of `streamOpenFileV3`, missing from the
header.  An unsupported mode returns NULL with `errno = ENOTSUP` "before
touching any backend or lease".  Otherwise the lock (for a non-empty
`lockPath`) and the backend are called; when the backend answers (`backendOk`)
a handle is assigned, tagged with the storage policy and registered, and when
it fails NULL is returned with the error of the backend. -/
def streamOpenFileV3 (k : FcntlFlags) (fs : FilesystemSession) (path : String) (flags : Int)
    (lockPath storagePolicyName : String) (backendOk : Bool) :
    Except OpenError FileHandle × FilesystemSession :=
  if unsupportedOpenMode k flags then (Except.error OpenError.ENOTSUP, fs)
  else
    let called : FilesystemSession :=
      { handles := fs.handles,
        backendCalls := fs.backendCalls + 1,
        leaseCalls := if lockPath = "" then fs.leaseCalls else fs.leaseCalls + 1 }
    if backendOk then
      let h : FileHandle :=
        { fileId := fs.handles.length + 1, path := path, flags := flags,
          lockPath := lockPath, storagePolicyName := storagePolicyName }
      (Except.ok h, { called with handles := h :: fs.handles })
    else (Except.error OpenError.backendFailure, called)

/-- Modelled from the spec: `streamOpenFileV2`, the open without a
storage-policy name. -/
def streamOpenFileV2 (k : FcntlFlags) (fs : FilesystemSession) (path : String) (flags : Int)
    (lockPath : String) (backendOk : Bool) :
    Except OpenError FileHandle × FilesystemSession :=
  streamOpenFileV3 k fs path flags lockPath "" backendOk

/-- Modelled from the spec: `streamOpenFile`, the open with the default
lock-path `""` ("empty string means no coordination requested"). -/
def streamOpenFile (k : FcntlFlags) (fs : FilesystemSession) (path : String) (flags : Int)
    (backendOk : Bool) : Except OpenError FileHandle × FilesystemSession :=
  streamOpenFileV2 k fs path flags "" backendOk

/-! ## Lease recovery

The header declares `int streamRecoverLease(streamFS fs, const char * path)`
with the comment `@return 0 if the file is already closed else -1`. -/

/-- The answer of the namespace authority to a recovery request (spec,
external interfaces: `recoverLease(path) -> {done | pending}`). -/
inductive RecoverAnswer where
  | done
  | pending
deriving DecidableEq

/-- Modelled from the spec: the lease records of the namespace authority,
which the header does not declare: the holder of the outstanding lease of each
path (`none` when no lease is outstanding, the file being closed), and the
paths on which block recovery was triggered, latest first. -/
structure LeaseTable where
  holder : String → Option String
  blockRecoveries : List String

/-- What a recovery call tells its caller: the `int` returned and the
"shouldWait" signal of the spec. -/
structure RecoverResult where
  ret : Int
  shouldWait : Bool
deriving DecidableEq

/-- Modelled from the spec: the body of `streamRecoverLease`, missing from the
header: it "returns success immediately if no lease is outstanding, otherwise
triggers the authority's block-recovery path and the caller must be told
(shouldWait out-value) whether recovery is synchronous or requires polling";
the `int` is the one of the header comment, `0 if the file is already closed
else -1`. -/
def streamRecoverLease (t : LeaseTable) (path : String) (answer : RecoverAnswer) :
    RecoverResult × LeaseTable :=
  match t.holder path with
  | none => ({ ret := 0, shouldWait := false }, t)
  | some _ =>
    ({ ret := -1, shouldWait := decide (answer = RecoverAnswer.pending) },
     { holder := fun p =>
         if p = path ∧ answer = RecoverAnswer.done then none else t.holder p,
       blockRecoveries := path :: t.blockRecoveries })

/-! ## Copy between the two tiers

The header declares `streamCopyDfvObs(fs, src, dst, dstStoragePolicyName,
lockPath, overwriteDest)`, "Returns 0 on success, -1 on error".  The lock-path
only serialises the call against other holders and is left out of the model. -/

/-- The classification of a failed copy. -/
inductive CopyError where
  | precondition
  | backendFailure
deriving DecidableEq

/-- A stored file: the tier tag it was written with and its bytes. -/
structure StoredFile where
  storagePolicyName : String
  bytes : List Nat
deriving DecidableEq

/-- Modelled from the spec: the two storage tiers behind a session, which the
header does not declare: the file stored under each path, and the number of
bytes copies have moved so far. -/
structure TieredStore where
  files : String → Option StoredFile
  bytesMoved : Nat

/-- Modelled from the spec: the body of `streamCopyDfvObs`, missing from the
header: "presence of the destination combined with `overwriteDest = false` is
a precondition failure reported before any bytes move".  Otherwise the bytes
of the source are written to the destination under the destination policy; a
missing source is an error of the backend.  The result is the `int` of the
header (0 on success, -1 on error) with the error classification. -/
def streamCopyDfvObs (st : TieredStore) (src dst dstStoragePolicyName : String)
    (overwriteDest : Bool) : (Int × Option CopyError) × TieredStore :=
  if (st.files dst).isSome && !overwriteDest then ((-1, some CopyError.precondition), st)
  else
    match st.files src with
    | none => ((-1, some CopyError.backendFailure), st)
    | some f =>
      ((0, none),
       { files := fun p =>
           if p = dst then
             some { storagePolicyName := dstStoragePolicyName, bytes := f.bytes }
           else st.files p,
         bytesMoved := st.bytesMoved + f.bytes.length })

/-! ## Bit-level lemmas -/

theorem ldiff_mask (k n : Nat) :
    Nat.ldiff (2 ^ k - 1) n = (2 ^ k - 1) ^^^ (n % 2 ^ k) := by
  apply Nat.eq_of_testBit_eq
  intro i
  rw [Nat.testBit_ldiff, Nat.testBit_xor, Nat.testBit_mod_two_pow,
    Nat.testBit_two_pow_sub_one]
  by_cases hi : i < k <;> simp [hi]

theorem ldiff_three (n : Nat) : Nat.ldiff 3 n = 3 - n % 4 := by
  have h := ldiff_mask 2 n
  have h4 : n % 4 < 4 := Nat.mod_lt _ (by decide)
  show Nat.ldiff (2 ^ 2 - 1) n = 3 - n % 4
  rw [h]
  show 3 ^^^ (n % 4) = 3 - n % 4
  generalize n % 4 = r at h4
  interval_cases r <;> decide

theorem ldiff_one (n : Nat) : Nat.ldiff 1 n = 1 - n % 2 := by
  have h := ldiff_mask 1 n
  have h2 : n % 2 < 2 := Nat.mod_lt _ (by decide)
  show Nat.ldiff (2 ^ 1 - 1) n = 1 - n % 2
  rw [h]
  show 1 ^^^ (n % 2) = 1 - n % 2
  generalize n % 2 = r at h2
  interval_cases r <;> decide

/-- Masking with `0x3` keeps the value modulo four, for negative words too. -/
theorem land_three (x : Int) : Int.land x 3 = x % 4 := by
  cases x with
  | ofNat n =>
    show ((n &&& 3 : Nat) : Int) = (n : Int) % 4
    have h : n &&& 3 = n % 4 := Nat.and_pow_two_sub_one_eq_mod n 2
    rw [h]; rfl
  | negSucc n =>
    show ((Nat.ldiff 3 n : Nat) : Int) = Int.negSucc n % 4
    rw [ldiff_three, Int.negSucc_emod n (by decide)]
    omega

/-- Masking with `1` keeps the parity, for negative words too. -/
theorem land_one (x : Int) : Int.land x 1 = x % 2 := by
  cases x with
  | ofNat n =>
    show ((n &&& 1 : Nat) : Int) = (n : Int) % 2
    have h : n &&& 1 = n % 2 := Nat.and_pow_two_sub_one_eq_mod n 1
    rw [h]; rfl
  | negSucc n =>
    show ((Nat.ldiff 1 n : Nat) : Int) = Int.negSucc n % 2
    rw [ldiff_one, Int.negSucc_emod n (by decide)]
    omega

/-- The arithmetic shift is the floor division by the power of two. -/
theorem shiftRight_eq_fdiv (x : Int) (k : Nat) :
    Int.shiftRight x k = Int.fdiv x (2 ^ k) := by
  have h := Int.shiftRight_eq_div_pow x k
  rw [Int.shiftRight_eq] at h
  rw [h, Int.fdiv_eq_ediv x (by positivity)]
  norm_cast

theorem shiftRight_eq_ediv (x : Int) (k : Nat) :
    Int.shiftRight x k = x / 2 ^ k := by
  have h := Int.shiftRight_eq_div_pow x k
  rw [Int.shiftRight_eq] at h
  rw [h]
  norm_cast

theorem getIoPriority_eq (f : Int) : getIoPriority f = f / 2 ^ 24 % 4 := by
  unfold getIoPriority
  rw [land_three, shiftRight_eq_ediv]

theorem getIsWal_eq (f : Int) : getIsWal f = (f / 2 ^ 26 % 2 != 0) := by
  unfold getIsWal
  rw [land_one, shiftRight_eq_ediv]

theorem getIsCache_eq (f : Int) : getIsCache f = (f / 2 ^ 27 % 2 != 0) := by
  unfold getIsCache
  rw [land_one, shiftRight_eq_ediv]

/-- Bit `k` of a two's-complement integer is the parity of its floor quotient
by `2 ^ k`. -/
theorem testBit_eq_parity (f : Int) (k : Nat) :
    Int.testBit f k = (f / 2 ^ k % 2 != 0) := by
  cases f with
  | ofNat n =>
    show Nat.testBit n k = _
    rw [Nat.testBit_to_div_mod]
    have h : ((Int.ofNat n) / 2 ^ k % 2 : Int) = ((n / 2 ^ k % 2 : Nat) : Int) := by
      norm_cast
    rw [h]
    have h2 : n / 2 ^ k % 2 < 2 := Nat.mod_lt _ (by decide)
    generalize n / 2 ^ k % 2 = r at h2
    interval_cases r <;> decide
  | negSucc n =>
    show (!Nat.testBit n k) = _
    rw [Nat.testBit_to_div_mod]
    have hp : (0 : Int) < 2 ^ k := by positivity
    have h : (Int.negSucc n / 2 ^ k % 2 : Int) = 1 - ((n / 2 ^ k % 2 : Nat) : Int) := by
      rw [Int.negSucc_ediv n hp]
      change -((n : Int) / 2 ^ k + 1) % 2 = _
      have h3 : ((n : Int) / 2 ^ k) = ((n / 2 ^ k : Nat) : Int) := by norm_cast
      rw [h3]
      push_cast
      omega
    rw [h]
    have h2 : n / 2 ^ k % 2 < 2 := Nat.mod_lt _ (by decide)
    generalize n / 2 ^ k % 2 = r at h2
    interval_cases r <;> decide

theorem nat_lor_shiftRight_low (n m k : Nat) (hm : m < 2 ^ k) :
    (n ||| m) >>> k = n >>> k := by
  apply Nat.eq_of_testBit_eq
  intro i
  rw [Nat.testBit_shiftRight, Nat.testBit_shiftRight, Nat.testBit_or]
  have h : m.testBit (k + i) = false :=
    Nat.testBit_lt_two_pow (lt_of_lt_of_le hm (Nat.pow_le_pow_right (by decide) (by omega)))
  rw [h, Bool.or_false]

theorem nat_ldiff_shiftRight_low (n m k : Nat) (hm : m < 2 ^ k) :
    (Nat.ldiff n m) >>> k = n >>> k := by
  apply Nat.eq_of_testBit_eq
  intro i
  rw [Nat.testBit_shiftRight, Nat.testBit_shiftRight, Nat.testBit_ldiff]
  have h : m.testBit (k + i) = false :=
    Nat.testBit_lt_two_pow (lt_of_lt_of_le hm (Nat.pow_le_pow_right (by decide) (by omega)))
  rw [h]; simp

/-- OR-ing a non-negative value below `2 ^ k` into a word, negative or not,
leaves everything from bit `k` upwards as it was. -/
theorem shiftRight_lor_low (f : Int) (m k : Nat) (hm : m < 2 ^ k) :
    Int.shiftRight (Int.lor f (m : Int)) k = Int.shiftRight f k := by
  cases f with
  | ofNat n =>
    show Int.ofNat ((n ||| m) >>> k) = Int.ofNat (n >>> k)
    rw [nat_lor_shiftRight_low n m k hm]
  | negSucc n =>
    show Int.negSucc ((Nat.ldiff n m) >>> k) = Int.negSucc (n >>> k)
    rw [nat_ldiff_shiftRight_low n m k hm]

/-- A low part below `2 ^ 24` is invisible to the three getters. -/
theorem getters_lor_low (f l : Int) (h0 : 0 ≤ l) (h1 : l < 2 ^ 24) :
    getIoPriority (Int.lor f l) = getIoPriority f ∧
    getIsWal (Int.lor f l) = getIsWal f ∧
    getIsCache (Int.lor f l) = getIsCache f := by
  obtain ⟨m, rfl⟩ := Int.eq_ofNat_of_zero_le h0
  have hm : m < 2 ^ 24 := by exact_mod_cast h1
  have h24 := shiftRight_lor_low f m 24 hm
  have h26 := shiftRight_lor_low f m 26 (lt_trans hm (by decide))
  have h27 := shiftRight_lor_low f m 27 (lt_trans hm (by decide))
  unfold getIoPriority getIsWal getIsCache
  rw [h24, h26, h27]
  exact ⟨rfl, rfl, rfl⟩

/-- The OR of two non-negative values below `2 ^ 24` is again one. -/
theorem lor_low_closed (a b : Int) (ha0 : 0 ≤ a) (ha : a < 2 ^ 24) (hb0 : 0 ≤ b)
    (hb : b < 2 ^ 24) : 0 ≤ Int.lor a b ∧ Int.lor a b < 2 ^ 24 := by
  obtain ⟨m, rfl⟩ := Int.eq_ofNat_of_zero_le ha0
  obtain ⟨n, rfl⟩ := Int.eq_ofNat_of_zero_le hb0
  have hm : m < 2 ^ 24 := by exact_mod_cast ha
  have hn : n < 2 ^ 24 := by exact_mod_cast hb
  have h : m ||| n < 2 ^ 24 := Nat.or_lt_two_pow hm hn
  show 0 ≤ ((m ||| n : Nat) : Int) ∧ ((m ||| n : Nat) : Int) < 2 ^ 24
  exact ⟨Int.ofNat_nonneg _, by exact_mod_cast h⟩

/-- Folding `|` over values below `2 ^ 24` stays below `2 ^ 24`. -/
theorem foldl_lor_low (s : List Int) (a : Int) (ha0 : 0 ≤ a) (ha : a < 2 ^ 24)
    (hs : ∀ x ∈ s, 0 ≤ x ∧ x < 2 ^ 24) :
    0 ≤ s.foldl Int.lor a ∧ s.foldl Int.lor a < 2 ^ 24 := by
  induction s generalizing a with
  | nil => exact ⟨ha0, ha⟩
  | cons x t ih =>
    have hx := hs x (List.mem_cons_self x t)
    have hax := lor_low_closed a x ha0 ha hx.1 hx.2
    exact ih (Int.lor a x) hax.1 hax.2 (fun y hy => hs y (List.mem_cons_of_mem x hy))

theorem posixOpenFlags_low : ∀ x ∈ posixOpenFlags, 0 ≤ x ∧ x < 2 ^ 24 := by
  decide

/-- Words whose only set bits are among bits 24-27: `k * 2 ^ 24` with `k < 16`. -/
theorem foldl_lor_highByte (s : List Int) (k : Nat) (hk : k < 16)
    (hs : ∀ x ∈ s, x ∈ streamFlagConstants) :
    ∃ j : Nat, j < 16 ∧ s.foldl Int.lor ((k * 2 ^ 24 : Nat) : Int) = ((j * 2 ^ 24 : Nat) : Int) := by
  induction s generalizing k with
  | nil => exact ⟨k, hk, rfl⟩
  | cons x t ih =>
    have hx := hs x (List.mem_cons_self x t)
    have hstep : ∃ j : Nat, j < 16 ∧
        Int.lor ((k * 2 ^ 24 : Nat) : Int) x = ((j * 2 ^ 24 : Nat) : Int) := by
      have hall : ∀ k : Fin 16, ∀ c ∈ streamFlagConstants, ∃ j : Fin 16,
          Int.lor ((k.val * 2 ^ 24 : Nat) : Int) c = ((j.val * 2 ^ 24 : Nat) : Int) := by
        decide
      obtain ⟨j, hj⟩ := hall ⟨k, hk⟩ x hx
      exact ⟨j.val, j.isLt, hj⟩
    obtain ⟨j, hj, hjeq⟩ := hstep
    have h := ih j hj (fun y hy => hs y (List.mem_cons_of_mem x hy))
    rw [List.foldl_cons, hjeq]
    exact h

/-! ## The getters decode bits 24-27 -/

/-- C1: for every flag word `f` (every `Int`, so in particular every 32-bit
signed word, the negative ones included), `getIoPriority f` is the 2-bit field
at bits 24-25 of `f`: the floor quotient of `f` by `2 ^ 24`, taken modulo 4. -/
theorem getIoPriority_eq_field (f : Int) :
    getIoPriority f = Int.fmod (Int.fdiv f (2 ^ 24)) 4 := by
  rw [getIoPriority_eq, Int.fmod_eq_emod _ (by decide), Int.fdiv_eq_ediv f (by positivity)]

/-- C2: for every flag word `f` (in particular every 32-bit signed word),
`getIsWal f` is exactly bit 26 of the two's-complement value of `f`, and it is
true if and only if the floor quotient of `f` by `2 ^ 26` is odd. -/
theorem getIsWal_iff_bit26 (f : Int) :
    getIsWal f = Int.testBit f 26 ∧ (getIsWal f = true ↔ Odd (Int.fdiv f (2 ^ 26))) := by
  refine ⟨by rw [getIsWal_eq, testBit_eq_parity], ?_⟩
  rw [getIsWal_eq, Int.fdiv_eq_ediv f (by positivity), Int.odd_iff]
  have h := Int.emod_two_eq (f / 2 ^ 26)
  rcases h with h | h <;> simp [h]

/-- C3: for every flag word `f` (in particular every 32-bit signed word),
`getIsCache f` is exactly bit 27 of the two's-complement value of `f`, and it
is true if and only if the floor quotient of `f` by `2 ^ 27` is odd. -/
theorem getIsCache_iff_bit27 (f : Int) :
    getIsCache f = Int.testBit f 27 ∧ (getIsCache f = true ↔ Odd (Int.fdiv f (2 ^ 27))) := by
  refine ⟨by rw [getIsCache_eq, testBit_eq_parity], ?_⟩
  rw [getIsCache_eq, Int.fdiv_eq_ediv f (by positivity), Int.odd_iff]
  have h := Int.emod_two_eq (f / 2 ^ 27)
  rcases h with h | h <;> simp [h]

/-- C4: the four priority constants decode to the levels 0 (ultra-high),
1 (high), 2 (normal) and 3 (low), and on each of them `getIsWal` and
`getIsCache` are both false. -/
theorem priority_constants_decode :
    (getIoPriority STREAM_IO_PRIORITY_ULTRA_HIGH = 0 ∧
      getIoPriority STREAM_IO_PRIORITY_HIGH = 1 ∧
      getIoPriority STREAM_IO_PRIORITY_NORMAL = 2 ∧
      getIoPriority STREAM_IO_PRIORITY_LOW = 3) ∧
    (getIsWal STREAM_IO_PRIORITY_ULTRA_HIGH = false ∧
      getIsWal STREAM_IO_PRIORITY_HIGH = false ∧
      getIsWal STREAM_IO_PRIORITY_NORMAL = false ∧
      getIsWal STREAM_IO_PRIORITY_LOW = false) ∧
    (getIsCache STREAM_IO_PRIORITY_ULTRA_HIGH = false ∧
      getIsCache STREAM_IO_PRIORITY_HIGH = false ∧
      getIsCache STREAM_IO_PRIORITY_NORMAL = false ∧
      getIsCache STREAM_IO_PRIORITY_LOW = false) := by
  decide

/-- C5: decoding undoes packing.  For every priority `p` in 0..3, all booleans
`w` and `c` and every low part `l` with `0 ≤ l < 2 ^ 24`, the flag word
`(p * 2 ^ 24) | (w ? STREAM_WAL_FILE_FLAG : 0) | (c ? STREAM_NEED_CACHE_FLAG : 0) | l`
decodes to `getIoPriority = p`, `getIsWal = w` and `getIsCache = c`. -/
theorem getters_packOpenFlag (p : Int) (w c : Bool) (l : Int)
    (hp0 : 0 ≤ p) (hp3 : p ≤ 3) (hl0 : 0 ≤ l) (hl : l < 2 ^ 24) :
    getIoPriority (packOpenFlag p w c l) = p ∧
    getIsWal (packOpenFlag p w c l) = w ∧
    getIsCache (packOpenFlag p w c l) = c := by
  unfold packOpenFlag
  obtain ⟨h1, h2, h3⟩ := getters_lor_low
    (Int.lor (Int.lor (p * 2 ^ 24) (if w then STREAM_WAL_FILE_FLAG else 0))
      (if c then STREAM_NEED_CACHE_FLAG else 0)) l hl0 hl
  rw [h1, h2, h3]
  interval_cases p <;> cases w <;> cases c <;> decide

/-- The round trip at an instance: priority normal (bits 24-25 = 2), no WAL flag, the
cache flag set and the POSIX part `0x441` decode to priority 2, `isWal = false`
and `isCache = true`. -/
theorem getters_packOpenFlag_witness :
    ((0 : Int) ≤ 2 ∧ (2 : Int) ≤ 3 ∧ (0 : Int) ≤ 0x441 ∧ (0x441 : Int) < 2 ^ 24) ∧
    getIoPriority (packOpenFlag 2 false true 0x441) = 2 ∧
    getIsWal (packOpenFlag 2 false true 0x441) = false ∧
    getIsCache (packOpenFlag 2 false true 0x441) = true :=
  ⟨by decide,
    getters_packOpenFlag 2 false true 0x441 (by decide) (by decide) (by decide) (by decide)⟩

/-- C6: for every flag word `f` (in particular every 32-bit signed word),
`getIoPriority f` is one of 0, 1, 2, 3, never negative and never above 3, and
each of the four values is attained by a flag word that is an `int32_t`. -/
theorem getIoPriority_four_levels :
    (∀ f : Int, (0 ≤ getIoPriority f ∧ getIoPriority f ≤ 3) ∧
      (getIoPriority f = 0 ∨ getIoPriority f = 1 ∨ getIoPriority f = 2 ∨
        getIoPriority f = 3)) ∧
    (∃ f : Int, isInt32 f ∧ getIoPriority f = 0) ∧
    (∃ f : Int, isInt32 f ∧ getIoPriority f = 1) ∧
    (∃ f : Int, isInt32 f ∧ getIoPriority f = 2) ∧
    (∃ f : Int, isInt32 f ∧ getIoPriority f = 3) := by
  refine ⟨fun f => ?_, ⟨STREAM_IO_PRIORITY_ULTRA_HIGH, by decide, by decide⟩,
    ⟨STREAM_IO_PRIORITY_HIGH, by decide, by decide⟩,
    ⟨STREAM_IO_PRIORITY_NORMAL, by decide, by decide⟩,
    ⟨STREAM_IO_PRIORITY_LOW, by decide, by decide⟩⟩
  rw [getIoPriority_eq]
  omega

/-- C7: the POSIX open flags leave the high byte unoccupied.  Every bitwise OR
of values taken from the list of the header comment (a single value included)
is non-negative and below `2 ^ 24`, decodes to `getIoPriority = 0`,
`getIsWal = false`, `getIsCache = false`, and OR-ing it into any flag word `f`
changes none of the three getters. -/
theorem posix_flags_below_high_byte (s : List Int) (hs : ∀ x ∈ s, x ∈ posixOpenFlags) :
    (0 ≤ orAll s ∧ orAll s < 2 ^ 24) ∧
    (getIoPriority (orAll s) = 0 ∧ getIsWal (orAll s) = false ∧
      getIsCache (orAll s) = false) ∧
    ∀ f : Int, getIoPriority (Int.lor f (orAll s)) = getIoPriority f ∧
      getIsWal (Int.lor f (orAll s)) = getIsWal f ∧
      getIsCache (Int.lor f (orAll s)) = getIsCache f := by
  have hlow : 0 ≤ orAll s ∧ orAll s < 2 ^ 24 :=
    foldl_lor_low s 0 (by decide) (by decide) (fun x hx => posixOpenFlags_low x (hs x hx))
  refine ⟨hlow, ?_, fun f => getters_lor_low f (orAll s) hlow.1 hlow.2⟩
  have h24 : orAll s / 2 ^ 24 = 0 := Int.ediv_eq_zero_of_lt hlow.1 hlow.2
  have h26 : orAll s / 2 ^ 26 = 0 :=
    Int.ediv_eq_zero_of_lt hlow.1 (lt_trans hlow.2 (by decide))
  have h27 : orAll s / 2 ^ 27 = 0 :=
    Int.ediv_eq_zero_of_lt hlow.1 (lt_trans hlow.2 (by decide))
  rw [getIoPriority_eq, getIsWal_eq, getIsCache_eq, h24, h26, h27]
  decide

/-- The POSIX part at an instance: `0x40 | 0x400 | 0x8000 | 0x10004` is below `2 ^ 24`,
decodes to priority 0 without WAL or cache flag, and leaves the getters of
every flag word unchanged. -/
theorem posix_flags_below_high_byte_witness :
    (∀ x ∈ [(0x40 : Int), 0x400, 0x8000, 0x10004], x ∈ posixOpenFlags) ∧
    (0 ≤ orAll [0x40, 0x400, 0x8000, 0x10004] ∧
      orAll [0x40, 0x400, 0x8000, 0x10004] < 2 ^ 24) ∧
    (getIoPriority (orAll [0x40, 0x400, 0x8000, 0x10004]) = 0 ∧
      getIsWal (orAll [0x40, 0x400, 0x8000, 0x10004]) = false ∧
      getIsCache (orAll [0x40, 0x400, 0x8000, 0x10004]) = false) ∧
    ∀ f : Int,
      getIoPriority (Int.lor f (orAll [0x40, 0x400, 0x8000, 0x10004])) = getIoPriority f ∧
      getIsWal (Int.lor f (orAll [0x40, 0x400, 0x8000, 0x10004])) = getIsWal f ∧
      getIsCache (Int.lor f (orAll [0x40, 0x400, 0x8000, 0x10004])) = getIsCache f :=
  ⟨by decide, posix_flags_below_high_byte [0x40, 0x400, 0x8000, 0x10004] (by decide)⟩

/-- C8: priority levels are totally ordered by their encoding.  The decoded
values of the four constants are strictly increasing from ultra-high to low,
so are the raw constants, `getIoPriority` is monotone on the flag words of
`[0, 2 ^ 26)`, and ultra-high decodes to the minimum over all flag words. -/
theorem priority_order (f g : Int) (hf0 : 0 ≤ f) (hfg : f ≤ g) (hg : g < 2 ^ 26) :
    (getIoPriority STREAM_IO_PRIORITY_ULTRA_HIGH < getIoPriority STREAM_IO_PRIORITY_HIGH ∧
      getIoPriority STREAM_IO_PRIORITY_HIGH < getIoPriority STREAM_IO_PRIORITY_NORMAL ∧
      getIoPriority STREAM_IO_PRIORITY_NORMAL < getIoPriority STREAM_IO_PRIORITY_LOW) ∧
    (STREAM_IO_PRIORITY_ULTRA_HIGH < STREAM_IO_PRIORITY_HIGH ∧
      STREAM_IO_PRIORITY_HIGH < STREAM_IO_PRIORITY_NORMAL ∧
      STREAM_IO_PRIORITY_NORMAL < STREAM_IO_PRIORITY_LOW) ∧
    getIoPriority f ≤ getIoPriority g ∧
    ∀ h : Int, getIoPriority STREAM_IO_PRIORITY_ULTRA_HIGH ≤ getIoPriority h := by
  refine ⟨by decide, by decide, ?_, fun h => ?_⟩
  · rw [getIoPriority_eq, getIoPriority_eq]
    omega
  · have h0 : getIoPriority STREAM_IO_PRIORITY_ULTRA_HIGH = 0 := by decide
    rw [h0, getIoPriority_eq]
    omega

/-- Monotonicity at an instance: the flag words `0x00FFFFFF ≤ 0x02000400` of
`[0, 2 ^ 26)` decode to priorities in the same order. -/
theorem priority_order_witness :
    ((0 : Int) ≤ 0x00FFFFFF ∧ (0x00FFFFFF : Int) ≤ 0x02000400 ∧
      (0x02000400 : Int) < 2 ^ 26) ∧
    getIoPriority 0x00FFFFFF ≤ getIoPriority 0x02000400 :=
  ⟨by decide, (priority_order 0x00FFFFFF 0x02000400 (by decide) (by decide) (by decide)).2.2.1⟩

/-- C9: the remaining bits are zero.  Every bitwise OR of constants taken from
the six `STREAM_*` constants (any subset, in any order) has bits 28-31 zero and
bits 0-23 zero, lies within the mask `0x0F000000`, and is a non-negative
`int32_t`. -/
theorem constants_within_high_nibble (s : List Int)
    (hs : ∀ x ∈ s, x ∈ streamFlagConstants) :
    Int.land (orAll s) 0xF0000000 = 0 ∧ Int.land (orAll s) 0x00FFFFFF = 0 ∧
    Int.land (orAll s) 0x0F000000 = orAll s ∧ 0 ≤ orAll s ∧ isInt32 (orAll s) := by
  obtain ⟨j, hj, hjeq⟩ := foldl_lor_highByte s 0 (by decide) hs
  have hor : orAll s = ((j * 2 ^ 24 : Nat) : Int) := hjeq
  rw [hor]
  have hall : ∀ j : Fin 16,
      Int.land ((j.val * 2 ^ 24 : Nat) : Int) 0xF0000000 = 0 ∧
      Int.land ((j.val * 2 ^ 24 : Nat) : Int) 0x00FFFFFF = 0 ∧
      Int.land ((j.val * 2 ^ 24 : Nat) : Int) 0x0F000000 = ((j.val * 2 ^ 24 : Nat) : Int) ∧
      0 ≤ ((j.val * 2 ^ 24 : Nat) : Int) ∧ isInt32 ((j.val * 2 ^ 24 : Nat) : Int) := by
    decide
  exact hall ⟨j, hj⟩

/-- The mask at an instance: `LOW | WAL | CACHE` is `0x0F000000`, inside the mask. -/
theorem constants_within_high_nibble_witness :
    (∀ x ∈ [STREAM_IO_PRIORITY_LOW, STREAM_WAL_FILE_FLAG, STREAM_NEED_CACHE_FLAG],
      x ∈ streamFlagConstants) ∧
    Int.land (orAll [STREAM_IO_PRIORITY_LOW, STREAM_WAL_FILE_FLAG, STREAM_NEED_CACHE_FLAG])
      0xF0000000 = 0 ∧
    Int.land (orAll [STREAM_IO_PRIORITY_LOW, STREAM_WAL_FILE_FLAG, STREAM_NEED_CACHE_FLAG])
      0x00FFFFFF = 0 ∧
    Int.land (orAll [STREAM_IO_PRIORITY_LOW, STREAM_WAL_FILE_FLAG, STREAM_NEED_CACHE_FLAG])
      0x0F000000 =
      orAll [STREAM_IO_PRIORITY_LOW, STREAM_WAL_FILE_FLAG, STREAM_NEED_CACHE_FLAG] ∧
    0 ≤ orAll [STREAM_IO_PRIORITY_LOW, STREAM_WAL_FILE_FLAG, STREAM_NEED_CACHE_FLAG] ∧
    isInt32 (orAll [STREAM_IO_PRIORITY_LOW, STREAM_WAL_FILE_FLAG, STREAM_NEED_CACHE_FLAG]) :=
  ⟨by decide, constants_within_high_nibble
    [STREAM_IO_PRIORITY_LOW, STREAM_WAL_FILE_FLAG, STREAM_NEED_CACHE_FLAG] (by decide)⟩

/-! ## Bits 24-27 and nothing else -/

theorem getIsWal_bit (f : Int) : getIsWal f = Int.testBit f 26 := by
  rw [getIsWal_eq, testBit_eq_parity]

theorem getIsCache_bit (f : Int) : getIsCache f = Int.testBit f 27 := by
  rw [getIsCache_eq, testBit_eq_parity]

/-- The priority is bit 24 plus twice bit 25. -/
theorem getIoPriority_bits (f : Int) :
    getIoPriority f =
      (if Int.testBit f 24 then 1 else 0) + (if Int.testBit f 25 then 2 else 0) := by
  rw [getIoPriority_eq, testBit_eq_parity, testBit_eq_parity]
  simp only [bne_iff_ne, ne_eq]
  split_ifs <;> omega

theorem nat_land_shiftLeft (n m k : Nat) :
    n &&& (m <<< k) = ((n >>> k) &&& m) <<< k := by
  apply Nat.eq_of_testBit_eq
  intro i
  rw [Nat.testBit_and, Nat.testBit_shiftLeft, Nat.testBit_shiftLeft, Nat.testBit_and,
    Nat.testBit_shiftRight]
  by_cases hi : k ≤ i
  · have h : k + (i - k) = i := by omega
    simp [hi, h, Bool.and_comm]
  · simp [hi]

theorem nat_ldiff_shiftLeft (n m k : Nat) :
    Nat.ldiff (m <<< k) n = (Nat.ldiff m (n >>> k)) <<< k := by
  apply Nat.eq_of_testBit_eq
  intro i
  rw [Nat.testBit_ldiff, Nat.testBit_shiftLeft, Nat.testBit_shiftLeft, Nat.testBit_ldiff,
    Nat.testBit_shiftRight]
  by_cases hi : k ≤ i
  · have h : k + (i - k) = i := by omega
    simp [hi, h]
  · simp [hi]

theorem ldiff_fifteen (n : Nat) : Nat.ldiff 15 n = 15 - n % 16 := by
  have h := ldiff_mask 4 n
  have h16 : n % 16 < 16 := Nat.mod_lt _ (by decide)
  show Nat.ldiff (2 ^ 4 - 1) n = 15 - n % 16
  rw [h]
  show 15 ^^^ (n % 16) = 15 - n % 16
  generalize n % 16 = r at h16
  interval_cases r <;> decide

/-- Masking with `0x0F000000` keeps the four bits 24-27 in place and clears
every other bit, for negative words too. -/
theorem land_highNibble (f : Int) :
    Int.land f 0x0F000000 = f / 2 ^ 24 % 16 * 2 ^ 24 := by
  have hM : (0x0F000000 : Nat) = 15 <<< 24 := by decide
  cases f with
  | ofNat n =>
    show ((n &&& 0x0F000000 : Nat) : Int) = (n : Int) / 2 ^ 24 % 16 * 2 ^ 24
    rw [hM, nat_land_shiftLeft, Nat.and_pow_two_sub_one_eq_mod _ 4, Nat.shiftLeft_eq,
      Nat.shiftRight_eq_div_pow]
    push_cast
    rfl
  | negSucc n =>
    show ((Nat.ldiff 0x0F000000 n : Nat) : Int) = Int.negSucc n / 2 ^ 24 % 16 * 2 ^ 24
    rw [hM, nat_ldiff_shiftLeft, ldiff_fifteen, Nat.shiftLeft_eq, Nat.shiftRight_eq_div_pow,
      Int.negSucc_eq]
    have h16 : n / 2 ^ 24 % 16 < 16 := Nat.mod_lt _ (by decide)
    push_cast [Nat.cast_sub (Nat.le_of_lt_succ h16)]
    omega

/-- The four bits 24-27 written with the three getters. -/
theorem land_highNibble_getters (f : Int) :
    Int.land f 0x0F000000 =
      getIoPriority f * 2 ^ 24 + (if getIsWal f then 2 ^ 26 else 0) +
        (if getIsCache f then 2 ^ 27 else 0) := by
  rw [land_highNibble, getIoPriority_eq, getIsWal_eq, getIsCache_eq]
  simp only [bne_iff_ne, ne_eq]
  split_ifs <;> omega

/-! ## Telemetry -/

theorem record_max_le (t : Telemetry) (s : StatSample) (op : String) :
    (t.hist op).max ≤ ((record t s).hist op).max := by
  unfold record
  by_cases h : op = s.opType
  · simp only [h, if_true]
    exact Nat.le_max_left _ _
  · simp only [h, if_false]
    exact Nat.le_refl _

theorem record_ticker_le (t : Telemetry) (s : StatSample) (op : String) :
    t.ticker op ≤ (record t s).ticker op := by
  unfold record
  by_cases h : op = s.opType
  · simp only [h, if_true]
    exact Nat.le_add_right _ _
  · simp only [h, if_false]
    exact Nat.le_refl _

theorem snapshot_ticker (t : Telemetry) (clear : Bool) (op : String) :
    (snapshot t clear).2.ticker op = t.ticker op := by
  cases clear <;> rfl

theorem step_ticker_le (t : Telemetry) (c : TelemetryCall) (op : String) :
    t.ticker op ≤ (stepTelemetry t c).ticker op := by
  cases c with
  | record s => exact record_ticker_le t s op
  | snapshot clear =>
    show t.ticker op ≤ (snapshot t clear).2.ticker op
    rw [snapshot_ticker]

theorem run_ticker_le (calls : List TelemetryCall) (t : Telemetry) (op : String) :
    t.ticker op ≤ (runTelemetry t calls).ticker op := by
  induction calls generalizing t with
  | nil => exact Nat.le_refl _
  | cons c rest ih =>
    show t.ticker op ≤ (runTelemetry (stepTelemetry t c) rest).ticker op
    exact Nat.le_trans (step_ticker_le t c op) (ih (stepTelemetry t c))

theorem run_records_max_le (ss : List StatSample) (t : Telemetry) (op : String) :
    (t.hist op).max ≤ ((runTelemetry t (ss.map TelemetryCall.record)).hist op).max := by
  induction ss generalizing t with
  | nil => exact Nat.le_refl _
  | cons s rest ih =>
    show (t.hist op).max ≤
      ((runTelemetry (record t s) (rest.map TelemetryCall.record)).hist op).max
    exact Nat.le_trans (record_max_le t s op) (ih (record t s))

/-- C12: over every sequence of record calls with no clear in between, the
`max` of each histogram never decreases; over every sequence of record and
snapshot calls, clearing or not, the sum of each ticker never decreases; and a
clearing snapshot returns the current values, resets `count`, `sum` and `max`
of every histogram to zero and leaves every ticker untouched. -/
theorem telemetry_monotone :
    (∀ (t : Telemetry) (ss : List StatSample) (op : String),
      (t.hist op).max ≤ ((runTelemetry t (ss.map TelemetryCall.record)).hist op).max) ∧
    (∀ (t : Telemetry) (calls : List TelemetryCall) (op : String),
      t.ticker op ≤ (runTelemetry t calls).ticker op) ∧
    (∀ (t : Telemetry) (op : String),
      (snapshot t true).1.hist op = t.hist op ∧
      (snapshot t true).1.ticker op = t.ticker op ∧
      (snapshot t true).2.hist op = { count := 0, sum := 0, max := 0 } ∧
      (snapshot t true).2.ticker op = t.ticker op) :=
  ⟨fun t ss op => run_records_max_le ss t op, fun t calls op => run_ticker_le calls t op,
    fun _ _ => ⟨rfl, rfl, rfl, rfl⟩⟩

theorem open_unsupported (k : FcntlFlags) (fs : FilesystemSession)
    (path lockPath storagePolicyName : String) (flags : Int) (backendOk : Bool)
    (h : unsupportedOpenMode k flags = true) :
    streamOpenFileV3 k fs path flags lockPath storagePolicyName backendOk =
      (Except.error OpenError.ENOTSUP, fs) := by
  unfold streamOpenFileV3
  rw [if_pos h]

theorem open_supported (k : FcntlFlags) (fs : FilesystemSession)
    (path lockPath storagePolicyName : String) (flags : Int)
    (h : unsupportedOpenMode k flags = false) :
    (streamOpenFileV3 k fs path flags lockPath storagePolicyName true).1 =
      Except.ok { fileId := fs.handles.length + 1, path := path, flags := flags,
                  lockPath := lockPath, storagePolicyName := storagePolicyName } ∧
    (streamOpenFileV3 k fs path flags lockPath storagePolicyName false).1 =
      Except.error OpenError.backendFailure := by
  unfold streamOpenFileV3
  simp [h]

/-- C14: open rejects the unsupported open modes before touching any backend
or lease.  For every flag word that has a bit of `O_RDWR`, or a bit of `O_EXCL`
together with a bit of `O_CREAT`, each of `streamOpenFile`, `streamOpenFileV2`
and `streamOpenFileV3` returns NULL with `errno = ENOTSUP` and leaves the
session as it was: no handle, no backend call, no lease call.  With the Linux
values of `<fcntl.h>` the flag words `O_RDONLY`, `O_WRONLY`,
`O_WRONLY | O_APPEND` and `O_SYNC` pass the validation: the open yields a
handle when the backend answers and the error of the backend otherwise. -/
theorem open_rejects_unsupported_mode (k : FcntlFlags) (fs : FilesystemSession)
    (path lockPath storagePolicyName : String) (flags : Int) (backendOk : Bool)
    (h : Int.land flags k.O_RDWR ≠ 0 ∨
      (Int.land flags k.O_EXCL ≠ 0 ∧ Int.land flags k.O_CREAT ≠ 0)) :
    (streamOpenFile k fs path flags backendOk = (Except.error OpenError.ENOTSUP, fs) ∧
      streamOpenFileV2 k fs path flags lockPath backendOk =
        (Except.error OpenError.ENOTSUP, fs) ∧
      streamOpenFileV3 k fs path flags lockPath storagePolicyName backendOk =
        (Except.error OpenError.ENOTSUP, fs)) ∧
    ∀ x ∈ [linuxFcntl.O_RDONLY, linuxFcntl.O_WRONLY,
        Int.lor linuxFcntl.O_WRONLY linuxFcntl.O_APPEND, linuxFcntl.O_SYNC],
      unsupportedOpenMode linuxFcntl x = false ∧
      (streamOpenFileV3 linuxFcntl fs path x lockPath storagePolicyName true).1 =
        Except.ok { fileId := fs.handles.length + 1, path := path, flags := x,
                    lockPath := lockPath, storagePolicyName := storagePolicyName } ∧
      (streamOpenFileV3 linuxFcntl fs path x lockPath storagePolicyName false).1 =
        Except.error OpenError.backendFailure := by
  have hu : unsupportedOpenMode k flags = true := by
    unfold unsupportedOpenMode
    rcases h with h | ⟨h1, h2⟩
    · simp [h]
    · simp [h1, h2]
  refine ⟨⟨open_unsupported k fs path "" "" flags backendOk hu,
    open_unsupported k fs path lockPath "" flags backendOk hu,
    open_unsupported k fs path lockPath storagePolicyName flags backendOk hu⟩, ?_⟩
  intro x hx
  have hs : unsupportedOpenMode linuxFcntl x = false := by
    simp only [List.mem_cons, List.mem_singleton, List.mem_nil_iff, or_false] at hx
    rcases hx with rfl | rfl | rfl | rfl <;> decide
  exact ⟨hs, open_supported linuxFcntl fs path lockPath storagePolicyName x hs⟩

/-- An open for read and write (`O_RDWR`, 2 on Linux) with a lock-path on an
empty session: NULL, `ENOTSUP`, and the session is still empty. -/
theorem open_rejects_unsupported_mode_witness :
    (Int.land 2 linuxFcntl.O_RDWR ≠ 0 ∨
      (Int.land 2 linuxFcntl.O_EXCL ≠ 0 ∧ Int.land 2 linuxFcntl.O_CREAT ≠ 0)) ∧
    streamOpenFileV3 linuxFcntl { handles := [], backendCalls := 0, leaseCalls := 0 }
        "/data/f" 2 "/lock/f" "obs" true =
      (Except.error OpenError.ENOTSUP, { handles := [], backendCalls := 0, leaseCalls := 0 }) :=
  ⟨Or.inl (by decide),
    (open_rejects_unsupported_mode linuxFcntl { handles := [], backendCalls := 0, leaseCalls := 0 }
      "/data/f" "/lock/f" "obs" 2 true (Or.inl (by decide))).1.2.2⟩

/-! ## Lease recovery -/

/-- C15: `streamRecoverLease` on a path with no outstanding lease returns 0
at once, whatever the authority would answer, with `shouldWait = false`, and
triggers no block recovery: the lease table is left as it was.  On every path
the `int` returned is 0 if the file is already closed (no lease outstanding)
and -1 otherwise. -/
theorem recoverLease_without_lease (t : LeaseTable) (path : String) (answer : RecoverAnswer)
    (h : t.holder path = none) :
    streamRecoverLease t path answer = ({ ret := 0, shouldWait := false }, t) ∧
    (streamRecoverLease t path answer).2.blockRecoveries = t.blockRecoveries ∧
    ∀ (u : LeaseTable) (p : String) (a : RecoverAnswer),
      (streamRecoverLease u p a).1.ret = if (u.holder p).isNone then 0 else -1 := by
  have h1 : streamRecoverLease t path answer = ({ ret := 0, shouldWait := false }, t) := by
    unfold streamRecoverLease
    rw [h]
  refine ⟨h1, by rw [h1], fun u p a => ?_⟩
  unfold streamRecoverLease
  cases hu : u.holder p <;> rfl

/-- A table without any lease: recovery of `/data/f` returns 0, does not ask
to wait and triggers nothing. -/
theorem recoverLease_without_lease_witness :
    ((({ holder := fun _ => none, blockRecoveries := [] } : LeaseTable).holder "/data/f") =
      none) ∧
    (streamRecoverLease { holder := fun _ => none, blockRecoveries := [] } "/data/f"
      RecoverAnswer.pending).1 = { ret := 0, shouldWait := false } ∧
    (streamRecoverLease { holder := fun _ => none, blockRecoveries := [] } "/data/f"
      RecoverAnswer.pending).2.blockRecoveries = [] :=
  ⟨rfl,
    congrArg Prod.fst (recoverLease_without_lease
      { holder := fun _ => none, blockRecoveries := [] } "/data/f" RecoverAnswer.pending rfl).1,
    (recoverLease_without_lease
      { holder := fun _ => none, blockRecoveries := [] } "/data/f" RecoverAnswer.pending rfl).2.1⟩

/-! ## Copy between the tiers -/

/-- C16: `streamCopyDfvObs` with `overwriteDest = false` onto a destination
that exists returns -1 with a precondition error and leaves the store as it
was: no byte has moved and the bytes of the destination are unchanged. -/
theorem copy_keeps_existing_destination (st : TieredStore)
    (src dst dstStoragePolicyName : String) (h : (st.files dst).isSome = true) :
    streamCopyDfvObs st src dst dstStoragePolicyName false =
      ((-1, some CopyError.precondition), st) ∧
    (streamCopyDfvObs st src dst dstStoragePolicyName false).2.files dst = st.files dst ∧
    (streamCopyDfvObs st src dst dstStoragePolicyName false).2.bytesMoved = st.bytesMoved := by
  have h1 : streamCopyDfvObs st src dst dstStoragePolicyName false =
      ((-1, some CopyError.precondition), st) := by
    unfold streamCopyDfvObs
    simp [h]
  exact ⟨h1, by rw [h1], by rw [h1]⟩

/-- A store in which every path holds the three bytes 1, 2, 3 under the policy
`obs`: a copy onto `/dst` without overwrite fails with -1 and a precondition
error, and `/dst` still holds its bytes. -/
theorem copy_keeps_existing_destination_witness :
    ((({ files := fun _ => some { storagePolicyName := "obs", bytes := [1, 2, 3] },
         bytesMoved := 0 } : TieredStore).files "/dst").isSome = true) ∧
    (streamCopyDfvObs
      { files := fun _ => some { storagePolicyName := "obs", bytes := [1, 2, 3] },
        bytesMoved := 0 } "/src" "/dst" "dfv" false).1 = (-1, some CopyError.precondition) ∧
    (streamCopyDfvObs
      { files := fun _ => some { storagePolicyName := "obs", bytes := [1, 2, 3] },
        bytesMoved := 0 } "/src" "/dst" "dfv" false).2.files "/dst" =
      some { storagePolicyName := "obs", bytes := [1, 2, 3] } :=
  ⟨rfl,
    congrArg Prod.fst (copy_keeps_existing_destination
      { files := fun _ => some { storagePolicyName := "obs", bytes := [1, 2, 3] },
        bytesMoved := 0 } "/src" "/dst" "dfv" rfl).1,
    (copy_keeps_existing_destination
      { files := fun _ => some { storagePolicyName := "obs", bytes := [1, 2, 3] },
        bytesMoved := 0 } "/src" "/dst" "dfv" rfl).2.1⟩

/-! ## Frame properties of the three fields -/

/-- C17: the three getters depend only on bits 24-27.  For every flag word `f`
(every `Int`, so every 32-bit signed word, the negative ones included) each
getter gives the same result on `f` and on `f & 0x0F000000`; the reserved bits
28-31, the sign bit among them, and the low 24 bits change no decoded field. -/
theorem getters_depend_on_high_nibble (f : Int) :
    getIoPriority f = getIoPriority (Int.land f 0x0F000000) ∧
    getIsWal f = getIsWal (Int.land f 0x0F000000) ∧
    getIsCache f = getIsCache (Int.land f 0x0F000000) := by
  have b24 : Int.testBit 0x0F000000 24 = true := by decide
  have b25 : Int.testBit 0x0F000000 25 = true := by decide
  have b26 : Int.testBit 0x0F000000 26 = true := by decide
  have b27 : Int.testBit 0x0F000000 27 = true := by decide
  refine ⟨?_, ?_, ?_⟩
  · rw [getIoPriority_bits f, getIoPriority_bits (Int.land f 0x0F000000), Int.testBit_land,
      Int.testBit_land, b24, b25, Bool.and_true, Bool.and_true]
  · rw [getIsWal_bit f, getIsWal_bit (Int.land f 0x0F000000), Int.testBit_land, b26,
      Bool.and_true]
  · rw [getIsCache_bit f, getIsCache_bit (Int.land f 0x0F000000), Int.testBit_land, b27,
      Bool.and_true]

/-- C18: the decoded triple determines bits 24-27 exactly.  Two flag words
with the same priority, the same WAL flag and the same cache flag agree on
`& 0x0F000000`, and `f & 0x0F000000` is
`getIoPriority f * 2^24 + (getIsWal f ? 2^26 : 0) + (getIsCache f ? 2^27 : 0)`. -/
theorem high_nibble_determined (f g : Int) (hp : getIoPriority f = getIoPriority g)
    (hw : getIsWal f = getIsWal g) (hc : getIsCache f = getIsCache g) :
    Int.land f 0x0F000000 = Int.land g 0x0F000000 ∧
    Int.land f 0x0F000000 =
      getIoPriority f * 2 ^ 24 + (if getIsWal f then 2 ^ 26 else 0) +
        (if getIsCache f then 2 ^ 27 else 0) := by
  refine ⟨?_, land_highNibble_getters f⟩
  rw [land_highNibble_getters f, land_highNibble_getters g, hp, hw, hc]

/-- The words `-1` (all 32 bits set) and `0x0F000000` decode alike, to
priority 3 with both flags, and agree on `& 0x0F000000`. -/
theorem high_nibble_determined_witness :
    (getIoPriority (-1) = getIoPriority 0x0F000000 ∧ getIsWal (-1) = getIsWal 0x0F000000 ∧
      getIsCache (-1) = getIsCache 0x0F000000) ∧
    Int.land (-1) 0x0F000000 = Int.land 0x0F000000 0x0F000000 ∧
    Int.land (-1) 0x0F000000 =
      getIoPriority (-1) * 2 ^ 24 + (if getIsWal (-1) then 2 ^ 26 else 0) +
        (if getIsCache (-1) then 2 ^ 27 else 0) :=
  have hp : getIoPriority (-1) = getIoPriority 0x0F000000 := by
    rw [getIoPriority_eq, getIoPriority_eq]; decide
  have hw : getIsWal (-1) = getIsWal 0x0F000000 := by
    rw [getIsWal_eq, getIsWal_eq]; decide
  have hc : getIsCache (-1) = getIsCache 0x0F000000 := by
    rw [getIsCache_eq, getIsCache_eq]; decide
  ⟨⟨hp, hw, hc⟩, high_nibble_determined (-1) 0x0F000000 hp hw hc⟩

theorem getters_lor_wal (f : Int) :
    getIsWal (Int.lor f STREAM_WAL_FILE_FLAG) = true ∧
    getIoPriority (Int.lor f STREAM_WAL_FILE_FLAG) = getIoPriority f ∧
    getIsCache (Int.lor f STREAM_WAL_FILE_FLAG) = getIsCache f := by
  have b24 : Int.testBit STREAM_WAL_FILE_FLAG 24 = false := by decide
  have b25 : Int.testBit STREAM_WAL_FILE_FLAG 25 = false := by decide
  have b26 : Int.testBit STREAM_WAL_FILE_FLAG 26 = true := by decide
  have b27 : Int.testBit STREAM_WAL_FILE_FLAG 27 = false := by decide
  refine ⟨?_, ?_, ?_⟩
  · rw [getIsWal_bit, Int.testBit_lor, b26, Bool.or_true]
  · rw [getIoPriority_bits, getIoPriority_bits f, Int.testBit_lor, Int.testBit_lor, b24, b25,
      Bool.or_false, Bool.or_false]
  · rw [getIsCache_bit, getIsCache_bit f, Int.testBit_lor, b27, Bool.or_false]

theorem getters_lor_cache (f : Int) :
    getIsCache (Int.lor f STREAM_NEED_CACHE_FLAG) = true ∧
    getIoPriority (Int.lor f STREAM_NEED_CACHE_FLAG) = getIoPriority f ∧
    getIsWal (Int.lor f STREAM_NEED_CACHE_FLAG) = getIsWal f := by
  have b24 : Int.testBit STREAM_NEED_CACHE_FLAG 24 = false := by decide
  have b25 : Int.testBit STREAM_NEED_CACHE_FLAG 25 = false := by decide
  have b26 : Int.testBit STREAM_NEED_CACHE_FLAG 26 = false := by decide
  have b27 : Int.testBit STREAM_NEED_CACHE_FLAG 27 = true := by decide
  refine ⟨?_, ?_, ?_⟩
  · rw [getIsCache_bit, Int.testBit_lor, b27, Bool.or_true]
  · rw [getIoPriority_bits, getIoPriority_bits f, Int.testBit_lor, Int.testBit_lor, b24, b25,
      Bool.or_false, Bool.or_false]
  · rw [getIsWal_bit, getIsWal_bit f, Int.testBit_lor, b26, Bool.or_false]

/-- Replacing bits 24-25 by a word that has neither bit 26 nor bit 27 keeps the
two flags and installs the priority of that word. -/
theorem getters_replacePriority (f p : Int) (h26 : Int.testBit p 26 = false)
    (h27 : Int.testBit p 27 = false) :
    getIsWal (replacePriority f p) = getIsWal f ∧
    getIsCache (replacePriority f p) = getIsCache f ∧
    getIoPriority (replacePriority f p) = getIoPriority p := by
  have m24 : Int.testBit STREAM_IO_PRIORITY_LOW 24 = true := by decide
  have m25 : Int.testBit STREAM_IO_PRIORITY_LOW 25 = true := by decide
  have m26 : Int.testBit STREAM_IO_PRIORITY_LOW 26 = false := by decide
  have m27 : Int.testBit STREAM_IO_PRIORITY_LOW 27 = false := by decide
  unfold replacePriority
  refine ⟨?_, ?_, ?_⟩
  · rw [getIsWal_bit, getIsWal_bit f, Int.testBit_lor, Int.testBit_land, Int.testBit_lnot,
      m26, h26]
    simp
  · rw [getIsCache_bit, getIsCache_bit f, Int.testBit_lor, Int.testBit_land, Int.testBit_lnot,
      m27, h27]
    simp
  · rw [getIoPriority_bits, getIoPriority_bits p, Int.testBit_lor, Int.testBit_land,
      Int.testBit_lnot, Int.testBit_lor, Int.testBit_land, Int.testBit_lnot, m24, m25]
    simp

/-- C19: the three fields are independent.  For every flag word `f`, OR-ing in
`STREAM_WAL_FILE_FLAG` makes `getIsWal` true and leaves `getIoPriority` and
`getIsCache` unchanged; OR-ing in `STREAM_NEED_CACHE_FLAG` makes `getIsCache`
true and leaves `getIoPriority` and `getIsWal` unchanged; and replacing bits
24-25 by any of the four priority constants leaves `getIsWal` and `getIsCache`
unchanged (and installs the priority of that constant). -/
theorem fields_independent (f : Int) :
    (getIsWal (Int.lor f STREAM_WAL_FILE_FLAG) = true ∧
      getIoPriority (Int.lor f STREAM_WAL_FILE_FLAG) = getIoPriority f ∧
      getIsCache (Int.lor f STREAM_WAL_FILE_FLAG) = getIsCache f) ∧
    (getIsCache (Int.lor f STREAM_NEED_CACHE_FLAG) = true ∧
      getIoPriority (Int.lor f STREAM_NEED_CACHE_FLAG) = getIoPriority f ∧
      getIsWal (Int.lor f STREAM_NEED_CACHE_FLAG) = getIsWal f) ∧
    (getIsWal (replacePriority f STREAM_IO_PRIORITY_ULTRA_HIGH) = getIsWal f ∧
      getIsCache (replacePriority f STREAM_IO_PRIORITY_ULTRA_HIGH) = getIsCache f ∧
      getIoPriority (replacePriority f STREAM_IO_PRIORITY_ULTRA_HIGH) = 0) ∧
    (getIsWal (replacePriority f STREAM_IO_PRIORITY_HIGH) = getIsWal f ∧
      getIsCache (replacePriority f STREAM_IO_PRIORITY_HIGH) = getIsCache f ∧
      getIoPriority (replacePriority f STREAM_IO_PRIORITY_HIGH) = 1) ∧
    (getIsWal (replacePriority f STREAM_IO_PRIORITY_NORMAL) = getIsWal f ∧
      getIsCache (replacePriority f STREAM_IO_PRIORITY_NORMAL) = getIsCache f ∧
      getIoPriority (replacePriority f STREAM_IO_PRIORITY_NORMAL) = 2) ∧
    (getIsWal (replacePriority f STREAM_IO_PRIORITY_LOW) = getIsWal f ∧
      getIsCache (replacePriority f STREAM_IO_PRIORITY_LOW) = getIsCache f ∧
      getIoPriority (replacePriority f STREAM_IO_PRIORITY_LOW) = 3) := by
  have h0 := getters_replacePriority f STREAM_IO_PRIORITY_ULTRA_HIGH (by decide) (by decide)
  have h1 := getters_replacePriority f STREAM_IO_PRIORITY_HIGH (by decide) (by decide)
  have h2 := getters_replacePriority f STREAM_IO_PRIORITY_NORMAL (by decide) (by decide)
  have h3 := getters_replacePriority f STREAM_IO_PRIORITY_LOW (by decide) (by decide)
  have d0 : getIoPriority STREAM_IO_PRIORITY_ULTRA_HIGH = 0 := by decide
  have d1 : getIoPriority STREAM_IO_PRIORITY_HIGH = 1 := by decide
  have d2 : getIoPriority STREAM_IO_PRIORITY_NORMAL = 2 := by decide
  have d3 : getIoPriority STREAM_IO_PRIORITY_LOW = 3 := by decide
  rw [d0] at h0
  rw [d1] at h1
  rw [d2] at h2
  rw [d3] at h3
  exact ⟨getters_lor_wal f, getters_lor_cache f, h0, h1, h2, h3⟩

/-- C20: a flag word that sets no high-byte field decodes to the highest
priority.  Every flag `f` with `0 ≤ f < 2^24` has `getIoPriority f = 0`, the
value of `getIoPriority STREAM_IO_PRIORITY_ULTRA_HIGH`, `getIsWal f = false`
and `getIsCache f = false`, so all three getters agree on `f` and on
`STREAM_IO_PRIORITY_ULTRA_HIGH | f`; so do the flag 0 and the fallback access
modes `O_RDONLY = 1` and `O_WRONLY = 2` of the header. -/
theorem posix_only_flag_is_ultra_high (f : Int) (h0 : 0 ≤ f) (h1 : f < 2 ^ 24) :
    (getIoPriority f = 0 ∧ getIoPriority f = getIoPriority STREAM_IO_PRIORITY_ULTRA_HIGH ∧
      getIsWal f = false ∧ getIsCache f = false) ∧
    (getIoPriority f = getIoPriority (Int.lor STREAM_IO_PRIORITY_ULTRA_HIGH f) ∧
      getIsWal f = getIsWal (Int.lor STREAM_IO_PRIORITY_ULTRA_HIGH f) ∧
      getIsCache f = getIsCache (Int.lor STREAM_IO_PRIORITY_ULTRA_HIGH f)) ∧
    (getIoPriority 0 = 0 ∧ getIsWal 0 = false ∧ getIsCache 0 = false) ∧
    (getIoPriority O_RDONLY = 0 ∧ getIsWal O_RDONLY = false ∧ getIsCache O_RDONLY = false) ∧
    (getIoPriority O_WRONLY = 0 ∧ getIsWal O_WRONLY = false ∧ getIsCache O_WRONLY = false) := by
  have hu : getIoPriority STREAM_IO_PRIORITY_ULTRA_HIGH = 0 := by decide
  have hw : getIsWal STREAM_IO_PRIORITY_ULTRA_HIGH = false := by decide
  have hc : getIsCache STREAM_IO_PRIORITY_ULTRA_HIGH = false := by decide
  have h24 : f / 2 ^ 24 = 0 := Int.ediv_eq_zero_of_lt h0 h1
  have h26 : f / 2 ^ 26 = 0 := Int.ediv_eq_zero_of_lt h0 (lt_trans h1 (by decide))
  have h27 : f / 2 ^ 27 = 0 := Int.ediv_eq_zero_of_lt h0 (lt_trans h1 (by decide))
  have hp : getIoPriority f = 0 := by rw [getIoPriority_eq, h24]; decide
  have hfw : getIsWal f = false := by rw [getIsWal_eq, h26]; decide
  have hfc : getIsCache f = false := by rw [getIsCache_eq, h27]; decide
  obtain ⟨l1, l2, l3⟩ := getters_lor_low STREAM_IO_PRIORITY_ULTRA_HIGH f h0 h1
  refine ⟨⟨hp, by rw [hp, hu], hfw, hfc⟩, ⟨?_, ?_, ?_⟩, by decide, by decide, by decide⟩
  · rw [l1, hp, hu]
  · rw [l2, hfw, hw]
  · rw [l3, hfc, hc]

/-- The flag word `O_WRONLY | O_APPEND | O_CREAT` of Linux, `0x441`, sets no
high-byte field and decodes as ultra-high priority without WAL or cache. -/
theorem posix_only_flag_is_ultra_high_witness :
    ((0 : Int) ≤ 0x441 ∧ (0x441 : Int) < 2 ^ 24) ∧
    getIoPriority 0x441 = 0 ∧
    getIoPriority 0x441 = getIoPriority STREAM_IO_PRIORITY_ULTRA_HIGH ∧
    getIsWal 0x441 = false ∧ getIsCache 0x441 = false :=
  ⟨by decide, (posix_only_flag_is_ultra_high 0x441 (by decide) (by decide)).1⟩

end Stream
